import Mathlib

/-!
# VidhimurAI — verification of the EMPOWER analysis core and frontend client

Shallow embedding of the deterministic analysis pipeline of the VidhimurAI
legal-intelligence system (Query Normalizer → Issue Classifier → Ranking
Engine → Relevance Filter → Statute Collector → Strength Assessor), together
with the frontend API client (`frontend/src/services/api.ts`) and the
EmpowerPage submit handler (`EmpowerPage.tsx`).

The backend Python services (`backend/app/services/empower.py`, `ranking.py`,
`query_normalizer.py`, `config.py`) are not present in the repository
snapshot; the corresponding definitions below are modelled from the
specification (spec.md §3, §4, §6, §7), which documents their data model,
scoring formulas, thresholds and fallbacks. The frontend definitions are
translated directly from the TypeScript sources.

Scores are represented as exact rationals (`ℚ`), so the documented formula
`strength = relevance + authority * relevance / 100` is stated without
floating-point noise.
-/

/-- Modelled from the spec (§3 CaseRecord): enumerated court hierarchy,
Supreme Court > High Court > Tribunal/Forum > District Court. The backend
file defining it (`backend/app/services/kanoon_adapter.py`) is missing from
the snapshot. -/
inductive Court where
  | supreme
  | high
  | tribunal
  | district
deriving DecidableEq, Repr

/-- Modelled from the spec (§3 CaseRecord): immutable precedent record —
identifier, case name, court, decision year, citation count, associated
statutes, free-text summary, and matching tags. -/
structure CaseRecord where
  id : Nat
  caseName : String
  court : Court
  year : Nat
  citationCount : Nat
  statutes : List String
  summary : String
  tags : List String
deriving DecidableEq, Repr

/-- Modelled from the spec (§3 NormalizedQuery): original text, normalized
token sequence (stopwords removed, synonyms expanded) and detected domain
hint ("unknown" when no domain keyword matches). -/
structure NormalizedQuery where
  originalText : String
  tokens : List String
  domainHint : String
deriving DecidableEq, Repr

/-- Modelled from the spec (§3 ScoredCase): a CaseRecord plus the three
derived scores; `strength_score` is a pure function of the other two. -/
structure ScoredCase where
  record : CaseRecord
  relevance_score : ℚ
  authority_score : ℚ
  strength_score : ℚ
deriving DecidableEq, Repr

/-- Modelled from the spec (§3 AnalysisResult): ternary legal strength
verdict. -/
inductive Verdict where
  | strong
  | moderate
  | weak
deriving DecidableEq, Repr

/-- Modelled from the spec (§4.4): classifier output — the chosen category
plus the explicit boolean flag signalling that the LLM fallback should be
invoked by the calling layer. -/
structure Classification where
  category : String
  needsFallback : Bool
deriving DecidableEq, Repr

/-- Modelled from the spec (§3, §4.4): the structured analysis result. The
classifier's fallback flag travels on the result so the calling layer can
trigger the LLM enhancement. -/
structure AnalysisResult where
  issueType : String
  relevantSections : List String
  precedents : List ScoredCase
  legalStrength : Verdict
  actionSteps : List String
  needsFallback : Bool
deriving DecidableEq, Repr

/-- Modelled from the spec (§7): error taxonomy of the per-request core —
only InvalidInput (empty/blank query text) can occur per request. -/
inductive AnalyzeError where
  | invalidInput
deriving DecidableEq, Repr

/-- Modelled from the spec (§6): the static configuration collaborator —
stopword set, synonym table, domain and sub-category keyword tables (list
order is the declared priority order), minimum keyword-match count,
relevance floor threshold, strength-verdict thresholds, top-N limit,
per-category implied statutes and action-step templates. -/
structure Config where
  stopwords : List String
  synonyms : List (String × List String)
  domainKeywords : List (String × List String)
  subcategories : List (String × List (String × List String))
  minKeywordMatch : Nat
  relevanceFloor : ℚ
  strongThreshold : ℚ
  moderateThreshold : ℚ
  topN : Nat
  impliedStatutes : List (String × List String)
  actionSteps : List (String × List String)
deriving DecidableEq, Repr

/-- First-match lookup in a static string-keyed table, with a default. -/
def lookupTable {α : Type} (tbl : List (String × α)) (k : String) (dflt : α) : α :=
  match tbl.find? (fun p => p.1 == k) with
  | some p => p.2
  | none => dflt

/-- Split a character list at every character satisfying `p` (the separator
characters are dropped; empty fragments are kept and filtered later). -/
def splitChars (p : Char → Bool) : List Char → List (List Char)
  | [] => [[]]
  | c :: cs =>
    match splitChars p cs with
    | [] => [[]]
    | t :: ts => if p c then [] :: t :: ts else (c :: t) :: ts

/-- Modelled from the spec (§4.1): tokenize on whitespace/punctuation and
lowercase; empty fragments are dropped. -/
def tokenize (s : String) : List String :=
  ((splitChars (fun ch => !ch.isAlphanum) (s.data.map Char.toLower)).map
    (fun cs => String.mk cs)).filter (fun t => t != "")

/-- Modelled from the spec (§4.1): for each remaining token, add all synonym
expansions to the token set (the original token is retained). -/
def expandTokens (cfg : Config) (ts : List String) : List String :=
  ts.foldr (fun t acc => t :: (lookupTable cfg.synonyms t [] ++ acc)) []

/-- Deduplication preserving first-seen order (spec §3, §4.5). -/
def dedupFirst : List String → List String
  | [] => []
  | x :: xs => x :: (dedupFirst xs).filter (fun y => y != x)

/-- Modelled from the spec (§4.1, §4.4): count of distinct tokens of the
query that appear in a keyword set. -/
def keywordMatchCount (tokens : List String) (kws : List String) : Nat :=
  ((dedupFirst tokens).filter (fun t => kws.contains t)).length

/-- Pick the highest-scoring entry; ties keep the earlier entry, so list
order is the declared priority order (spec §4.1, §4.4). -/
def pickBest (dflt : String) : List (String × Nat) → String × Nat
  | [] => (dflt, 0)
  | p :: ps => ps.foldl (fun best q => if best.2 < q.2 then q else best) p

/-- Modelled from the spec (§4.1): the domain whose keyword set has the
highest count of matching tokens wins, ties broken by declared priority
order; if no domain keyword matches at all, the hint is "unknown". -/
def detectDomain (cfg : Config) (tokens : List String) : String :=
  let scores := cfg.domainKeywords.map (fun p => (p.1, keywordMatchCount tokens p.2))
  if scores.all (fun p => p.2 == 0) then "unknown"
  else (pickBest "unknown" scores).1

/-- Modelled from the spec (§4.1 Query Normalizer): tokenize query text and
optional context, drop stopwords, expand synonyms, detect the domain hint.
Pure function of the input and the static tables. -/
def normalizeQuery (cfg : Config) (text : String) (ctx : Option String) : NormalizedQuery :=
  let raw := tokenize (text ++ " " ++ ctx.getD "")
  let kept := raw.filter (fun t => !cfg.stopwords.contains t)
  let expanded := expandTokens cfg kept
  { originalText := text
    tokens := expanded
    domainHint := detectDomain cfg expanded }

/-- Modelled from the spec (§4.4 Issue Classifier): within the hinted
domain, the sub-category with the highest keyword-match count wins (ties by
declared priority order). If the hint is "unknown", or no sub-category
reaches the minimum keyword-match count, return the generic fallback
category "General Legal Issue" with the fallback flag set. -/
def classify (cfg : Config) (nq : NormalizedQuery) : Classification :=
  if nq.domainHint == "unknown" then
    { category := "General Legal Issue", needsFallback := true }
  else
    let subs := lookupTable cfg.subcategories nq.domainHint []
    let best := pickBest "General Legal Issue"
      (subs.map (fun p => (p.1, keywordMatchCount nq.tokens p.2)))
    if best.2 < cfg.minKeywordMatch then
      { category := "General Legal Issue", needsFallback := true }
    else
      { category := best.1, needsFallback := false }

/-- Modelled from the spec (§4.2): the tokens of a case against which query
overlap is measured — its tags, summary and statutes. -/
def caseTokens (c : CaseRecord) : List String :=
  c.tags ++ tokenize c.summary ++ c.statutes

/-- Modelled from the spec (§4.2): number of distinct query tokens that
appear among the case's tags/summary/statutes. -/
def overlapCount (tokens : List String) (c : CaseRecord) : Nat :=
  keywordMatchCount tokens (caseTokens c)

/-- Modelled from the spec (§4.2): keyword-overlap relevance, normalized to
0–100 as overlap-count / max-possible-overlap × 100, capped at 100. The
maximum possible overlap is the number of distinct query tokens. -/
def relevance_score (nq : NormalizedQuery) (c : CaseRecord) : ℚ :=
  let d := (dedupFirst nq.tokens).length
  if d = 0 then 0
  else min 100 ((overlapCount nq.tokens c : ℚ) * 100 / (d : ℚ))

/-- Modelled from the spec (§3, §4.6): court-hierarchy weight, decreasing
down the hierarchy (exact constants are configuration, spec §9). -/
def courtWeight : Court → Nat
  | Court.supreme => 40
  | Court.high => 30
  | Court.tribunal => 20
  | Court.district => 10

/-- Modelled from the spec (§4.2): log-scaled citation component,
authority ∝ log(1 + citation_count). -/
def citationComponent (citations : Nat) : Nat :=
  10 * Nat.log 2 (1 + citations)

/-- Modelled from the spec (§4.2): log-scaled citation component combined
with the court-hierarchy weight, normalized to 0–100. -/
def authority_score (c : CaseRecord) : ℚ :=
  ((min 100 (citationComponent c.citationCount + courtWeight c.court) : Nat) : ℚ)

/-- Modelled from the spec (§4.2, the core formula, reproduced exactly):
`strength_score = relevance_score + (authority_score * relevance_score / 100)`. -/
def strength_score (r a : ℚ) : ℚ :=
  r + a * r / 100

/-- Modelled from the spec (§4.2): score one corpus case against the
normalized query along the two independent axes and combine them. -/
def scoreCase (nq : NormalizedQuery) (c : CaseRecord) : ScoredCase :=
  { record := c
    relevance_score := relevance_score nq c
    authority_score := authority_score c
    strength_score := strength_score (relevance_score nq c) (authority_score c) }

/-- Modelled from the spec (§4.3 Relevance Filter): drop any case whose
relevance_score falls below the fixed floor threshold; the floor is
inclusive and authority_score is never consulted. -/
def relevanceFilter (floor : ℚ) (l : List ScoredCase) : List ScoredCase :=
  l.filter (fun sc => decide (floor ≤ sc.relevance_score))

/-- Modelled from the spec (§4.2 output ordering): `caseLE a b` holds when
`a` may appear at or before `b` — descending strength_score, ties broken by
citation_count descending, then year descending, then case identifier
ascending. -/
def caseLE (a b : ScoredCase) : Prop :=
  b.strength_score < a.strength_score ∨
    (a.strength_score = b.strength_score ∧
      (b.record.citationCount < a.record.citationCount ∨
        (a.record.citationCount = b.record.citationCount ∧
          (b.record.year < a.record.year ∨
            (a.record.year = b.record.year ∧ a.record.id ≤ b.record.id)))))

/-- Lexicographic key realizing `caseLE` inside a linear order (negations
encode the descending axes). -/
def caseKey (a : ScoredCase) : Lex (ℚ × Lex (ℤ × Lex (ℤ × ℕ))) :=
  toLex (-a.strength_score,
    toLex (-(a.record.citationCount : ℤ),
      toLex (-(a.record.year : ℤ), a.record.id)))

theorem caseLE_iff_key (a b : ScoredCase) : caseLE a b ↔ caseKey a ≤ caseKey b := by
  unfold caseLE caseKey
  simp only [Prod.Lex.le_iff, neg_lt_neg_iff, neg_inj, Nat.cast_lt, Nat.cast_inj]

instance : DecidableRel caseLE := fun a b => by
  unfold caseLE
  exact inferInstance

instance : IsTrans ScoredCase caseLE :=
  ⟨fun a b c hab hbc =>
    (caseLE_iff_key a c).mpr
      (le_trans ((caseLE_iff_key a b).mp hab) ((caseLE_iff_key b c).mp hbc))⟩

instance : IsTotal ScoredCase caseLE :=
  ⟨fun a b =>
    (le_total (caseKey a) (caseKey b)).imp (caseLE_iff_key a b).mpr (caseLE_iff_key b a).mpr⟩

/-- Modelled from the spec (§4.2, §4.3): score every corpus case, drop the
ones below the relevance floor, sort by the documented ordering and
truncate to top-N (truncation happens after filtering). -/
def rankCases (cfg : Config) (nq : NormalizedQuery) (corpus : List CaseRecord) :
    List ScoredCase :=
  (List.insertionSort caseLE
    (relevanceFilter cfg.relevanceFloor (corpus.map (scoreCase nq)))).take cfg.topN

/-- Modelled from the spec (§4.5 Statute Collector): category-implied
statutes first, then statutes of the surviving top cases, deduplicated
preserving first-seen order. -/
def collectStatutes (cfg : Config) (category : String) (top : List ScoredCase) :
    List String :=
  (lookupTable cfg.impliedStatutes category [] ++
    (top.map (fun sc => sc.record.statutes)).flatten |> dedupFirst)

/-- Modelled from the spec (§4.6): weighted court-hierarchy measure combined
with the mean strength_score of the surviving top-N cases. -/
def strengthMeasure (top : List ScoredCase) : ℚ :=
  ((top.map (fun sc => (courtWeight sc.record.court : ℚ) + sc.strength_score)).sum) /
    (top.length : ℚ)

/-- Modelled from the spec (§4.6 Strength Assessor): two fixed thresholds
bucket the measure into Strong / Moderate / Weak; an empty surviving set is
Weak by definition. -/
def assessStrength (cfg : Config) (top : List ScoredCase) : Verdict :=
  if top.isEmpty then Verdict.weak
  else if cfg.strongThreshold ≤ strengthMeasure top then Verdict.strong
  else if cfg.moderateThreshold ≤ strengthMeasure top then Verdict.moderate
  else Verdict.weak

/-- Modelled from the spec (§2 control flow): the full deterministic
pipeline on structurally valid input. -/
def analyzeCore (cfg : Config) (corpus : List CaseRecord) (text : String)
    (ctx : Option String) : AnalysisResult :=
  let nq := normalizeQuery cfg text ctx
  let cls := classify cfg nq
  let ranked := rankCases cfg nq corpus
  { issueType := cls.category
    relevantSections := collectStatutes cfg cls.category ranked
    precedents := ranked
    legalStrength := assessStrength cfg ranked
    actionSteps := lookupTable cfg.actionSteps cls.category []
    needsFallback := cls.needsFallback }

/-- Empty or whitespace-only text (spec §4.1, §7): every character of the
string is whitespace, which is exactly when trimming leaves the empty
string. -/
def isBlank (s : String) : Bool :=
  s.data.all (fun c => c.isWhitespace)

/-- Modelled from the spec (§6, §7): `Analyze(queryText, optionalContext)`
fails fast with InvalidInput on empty/whitespace-only text and otherwise
always returns a well-formed AnalysisResult. -/
def analyze (cfg : Config) (corpus : List CaseRecord) (text : String)
    (ctx : Option String) : Except AnalyzeError AnalysisResult :=
  if isBlank text then Except.error AnalyzeError.invalidInput
  else Except.ok (analyzeCore cfg corpus text ctx)

/-! ## Frontend API client (`frontend/src/services/api.ts`) -/

/-- From `api.ts` (interface CaseResult): shape of one case in backend
responses. -/
structure CaseResult where
  kanoon_tid : Option Int
  case_name : String
  court : String
  year : Int
  citation_count : Int
  strength_score : ℚ
  authority_score : ℚ
  relevance_score : ℚ
  summary : String
deriving DecidableEq, Repr

/-- From `api.ts` (interface EmpowerResponse): `legal_strength` is the
string union Strong | Moderate | Weak. -/
inductive LegalStrength where
  | strong
  | moderate
  | weak
deriving DecidableEq, Repr

/-- From `api.ts` (interface EmpowerResponse). -/
structure EmpowerResponse where
  issue_type : String
  relevant_sections : List String
  precedents : List CaseResult
  legal_strength : LegalStrength
  action_steps : List String
deriving DecidableEq, Repr

/-- From `api.ts` (analyzeEmpowerment): the serialized request body.
`context := none` (resp. `lang := none`) models the key being absent from
the serialized JSON object, exactly as `JSON.stringify` omits keys that
were never assigned. -/
structure AnalyzeBody where
  query : String
  context : Option String
  lang : Option String
deriving DecidableEq, Repr

/-- From `api.ts` lines 53–62 (analyzeEmpowerment): `const body = { query };
if (context) body.context = context; if (lang) body.lang = lang;` — an
optional field is added to the body only when the argument is truthy, and a
string is truthy exactly when it is non-empty. -/
def buildAnalyzeBody (query : String) (context lang : Option String) : AnalyzeBody :=
  { query := query
    context := match context with
      | some s => if s = "" then none else some s
      | none => none
    lang := match lang with
      | some s => if s = "" then none else some s
      | none => none }

/-! ## EmpowerPage submit handler (`frontend/src/pages/EmpowerPage.tsx`) -/

/-- From `EmpowerPage.tsx`: the component state touched by `handleAnalyze`
(query, context, results, loading, error). -/
structure EmpowerPageState where
  query : String
  context : String
  results : Option EmpowerResponse
  loading : Bool
  error : String
deriving DecidableEq, Repr

/-- From `EmpowerPage.tsx` lines 22–38 (handleAnalyze, synchronous part):
`if (!query.trim()) return` — on a blank query the handler returns with the
state untouched and no request issued. Otherwise it sets loading, clears
error and results, and calls `analyzeEmpowerment(query, context ||
undefined)`; the issued request body is the one `analyzeEmpowerment`
serializes. -/
def handleAnalyze (st : EmpowerPageState) : EmpowerPageState × Option AnalyzeBody :=
  if isBlank st.query then (st, none)
  else
    ({ st with loading := true, error := "", results := none },
      some (buildAnalyzeBody st.query
        (if st.context = "" then none else some st.context) none))

/-- From `EmpowerPage.tsx` lines 135–138: the submit button carries
`disabled={loading || !query.trim()}`; `!query.trim()` is true exactly when
the query is blank. -/
def submitDisabled (st : EmpowerPageState) : Bool :=
  st.loading || isBlank st.query

/-! ## Helper lemmas -/

/-- The domain hint of a normalized query is exactly the detector applied to
its own normalized token list. -/
theorem normalizeQuery_domainHint (cfg : Config) (text : String) (ctx : Option String) :
    (normalizeQuery cfg text ctx).domainHint =
      detectDomain cfg (normalizeQuery cfg text ctx).tokens := rfl

/-- Every element of the first-seen deduplication occurs in the original
list. -/
theorem mem_of_mem_dedupFirst {t : String} : ∀ {l : List String},
    t ∈ dedupFirst l → t ∈ l := by
  intro l
  induction l with
  | nil => intro h; exact absurd h (List.not_mem_nil t)
  | cons x xs ih =>
    intro h
    rcases List.mem_cons.mp h with h1 | h2
    · exact List.mem_cons.mpr (Or.inl h1)
    · exact List.mem_cons.mpr (Or.inr (ih (List.mem_of_mem_filter h2)))

/-- When no token of the query occurs in a keyword set, the keyword-match
count is zero. -/
theorem keywordMatchCount_eq_zero (tokens kws : List String)
    (h : ∀ t ∈ tokens, t ∉ kws) :
    keywordMatchCount tokens kws = 0 := by
  unfold keywordMatchCount
  rw [List.length_eq_zero, List.filter_eq_nil_iff]
  intro t ht
  have ht' : t ∈ tokens := mem_of_mem_dedupFirst ht
  simp only [List.elem_iff]
  exact h t ht'

/-- When no token of the query occurs in any domain keyword set, every
domain's match count is zero and the detector reports "unknown". -/
theorem detectDomain_eq_unknown (cfg : Config) (tokens : List String)
    (h : ∀ p ∈ cfg.domainKeywords, ∀ t ∈ tokens, t ∉ p.2) :
    detectDomain cfg tokens = "unknown" := by
  unfold detectDomain
  have hall : (cfg.domainKeywords.map
      (fun p => (p.1, keywordMatchCount tokens p.2))).all (fun p => p.2 == 0) = true := by
    rw [List.all_eq_true]
    intro x hx
    rw [List.mem_map] at hx
    obtain ⟨p, hp, rfl⟩ := hx
    simp only [beq_iff_eq]
    exact keywordMatchCount_eq_zero tokens p.2 (h p hp)
  simp [hall]

/-- Membership in the relevance filter output unfolds to membership in the
input plus the inclusive floor test. -/
theorem mem_relevanceFilter (floor : ℚ) (l : List ScoredCase) (sc : ScoredCase) :
    sc ∈ relevanceFilter floor l ↔ sc ∈ l ∧ floor ≤ sc.relevance_score := by
  unfold relevanceFilter
  simp [List.mem_filter]

/-! ## Claim theorems -/

/-- C1: for every CaseRecord scored against a NormalizedQuery, strength_score
equals relevance_score + (authority_score * relevance_score / 100); when
relevance_score is 0 — in particular whenever the query has zero token
overlap with the case — strength_score is 0 regardless of authority_score,
and when relevance_score reaches 100 the full authority_score is added. -/
theorem strength_is_relevance_gated (nq : NormalizedQuery) (c : CaseRecord) :
    (scoreCase nq c).strength_score =
      (scoreCase nq c).relevance_score +
        (scoreCase nq c).authority_score * (scoreCase nq c).relevance_score / 100 ∧
    ((scoreCase nq c).relevance_score = 0 → (scoreCase nq c).strength_score = 0) ∧
    (overlapCount nq.tokens c = 0 → (scoreCase nq c).strength_score = 0) ∧
    ((scoreCase nq c).relevance_score = 100 →
      (scoreCase nq c).strength_score = 100 + (scoreCase nq c).authority_score) := by
  refine ⟨rfl, ?_, ?_, ?_⟩
  · intro h
    simp only [scoreCase] at h ⊢
    rw [strength_score, h]
    ring
  · intro h
    have hmin : min (100 : ℚ) 0 = 0 := min_eq_right (by norm_num)
    have hr : relevance_score nq c = 0 := by
      unfold relevance_score
      simp [h, hmin]
    simp only [scoreCase]
    rw [strength_score, hr]
    ring
  · intro h
    simp only [scoreCase] at h ⊢
    rw [strength_score, h]
    ring

/-- C2: a case appears in the Relevance Filter's output iff it was in the
input and its relevance_score is at least the floor (authority_score is
never consulted); a case exactly at the floor is retained, one a unit below
is excluded, and every case in the ranked output satisfies the floor. -/
theorem relevanceFilter_floor_inclusive (floor : ℚ) (l : List ScoredCase)
    (sc : ScoredCase) :
    (sc ∈ relevanceFilter floor l ↔ sc ∈ l ∧ floor ≤ sc.relevance_score) ∧
    (sc ∈ l → sc.relevance_score = floor → sc ∈ relevanceFilter floor l) ∧
    (sc.relevance_score = floor - 1 → sc ∉ relevanceFilter floor l) ∧
    (∀ cfg nq corpus, sc ∈ rankCases cfg nq corpus →
      cfg.relevanceFloor ≤ sc.relevance_score) := by
  refine ⟨mem_relevanceFilter floor l sc, ?_, ?_, ?_⟩
  · intro h1 h2
    exact (mem_relevanceFilter floor l sc).mpr ⟨h1, h2.ge⟩
  · intro h2 hmem
    have hle := ((mem_relevanceFilter floor l sc).mp hmem).2
    rw [h2] at hle
    linarith
  · intro cfg nq corpus hm
    unfold rankCases at hm
    have h1 : sc ∈ List.insertionSort caseLE
        (relevanceFilter cfg.relevanceFloor (corpus.map (scoreCase nq))) :=
      List.mem_of_mem_take hm
    have h2 : sc ∈ relevanceFilter cfg.relevanceFloor (corpus.map (scoreCase nq)) :=
      (List.mem_insertionSort caseLE).mp h1
    exact ((mem_relevanceFilter _ _ _).mp h2).2

/-- C3: Analyze is a deterministic function of its inputs — identical query
text and optional context against an unchanged corpus and configuration
give identical AnalysisResult values. -/
theorem analyze_deterministic (cfg : Config) (corpus : List CaseRecord)
    (t1 t2 : String) (c1 c2 : Option String) (ht : t1 = t2) (hc : c1 = c2) :
    analyze cfg corpus t1 c1 = analyze cfg corpus t2 c2 := by
  subst ht
  subst hc
  rfl

/-- C4: Analyze fails with InvalidInput exactly on empty or whitespace-only
query text; on every other input — any corpus, any context — it returns a
well-formed AnalysisResult instead of an error. -/
theorem analyze_invalid_input_iff_blank (cfg : Config) (corpus : List CaseRecord)
    (text : String) (ctx : Option String) :
    (isBlank text = true →
      analyze cfg corpus text ctx = Except.error AnalyzeError.invalidInput) ∧
    (isBlank text = false →
      analyze cfg corpus text ctx = Except.ok (analyzeCore cfg corpus text ctx)) := by
  constructor <;> intro h <;> simp [analyze, h]

/-- C6: increasing only a case's citation_count never decreases its
authority_score and leaves its relevance_score unchanged — the two scoring
axes are independent, with authority monotone in citation_count. -/
theorem scoring_axes_independent (nq : NormalizedQuery) (c : CaseRecord)
    (n n' : Nat) (h : n ≤ n') :
    authority_score { c with citationCount := n } ≤
      authority_score { c with citationCount := n' } ∧
    relevance_score nq { c with citationCount := n } =
      relevance_score nq { c with citationCount := n' } := by
  constructor
  · unfold authority_score citationComponent
    have hlog : Nat.log 2 (1 + n) ≤ Nat.log 2 (1 + n') :=
      Nat.log_mono_right (Nat.add_le_add_left h 1)
    have hsum : 10 * Nat.log 2 (1 + n) + courtWeight c.court ≤
        10 * Nat.log 2 (1 + n') + courtWeight c.court :=
      Nat.add_le_add (Nat.mul_le_mul le_rfl hlog) le_rfl
    exact_mod_cast min_le_min le_rfl hsum
  · rfl

/-- C5: a query whose normalized tokens match no entry in any domain keyword
table is classified as "General Legal Issue" with the fallback flag set to
true on the result — a flag signalling the LLM fallback, not an exception. -/
theorem classifier_generic_fallback (cfg : Config) (text : String)
    (ctx : Option String)
    (h : ∀ p ∈ cfg.domainKeywords, ∀ t ∈ (normalizeQuery cfg text ctx).tokens,
      t ∉ p.2) :
    classify cfg (normalizeQuery cfg text ctx) =
      { category := "General Legal Issue", needsFallback := true } := by
  have hu : (normalizeQuery cfg text ctx).domainHint = "unknown" := by
    rw [normalizeQuery_domainHint]
    exact detectDomain_eq_unknown cfg _ h
  simp [classify, hu]

/-- C7: the ranked case sequence of every AnalysisResult is sorted by the
total tie-breaking order `caseLE` — descending strength_score, ties by
citation_count descending, then year descending, then case identifier
ascending — and `caseLE` is total, so the output order is determined. -/
theorem precedents_sorted (cfg : Config) (corpus : List CaseRecord)
    (text : String) (ctx : Option String) :
    List.Sorted caseLE (analyzeCore cfg corpus text ctx).precedents ∧
    (∀ a b : ScoredCase, caseLE a b ∨ caseLE b a) := by
  constructor
  · show List.Sorted caseLE (rankCases cfg (normalizeQuery cfg text ctx) corpus)
    unfold rankCases
    exact List.Pairwise.sublist (List.take_sublist _ _)
      (List.sorted_insertionSort caseLE _)
  · exact fun a b => IsTotal.total a b

/-- C8: the Strength Assessor always returns one of the three verdicts
Strong, Moderate or Weak; an empty surviving top-N set gives Weak, and in
particular Analyze on an empty corpus reports a Weak verdict. -/
theorem verdict_ternary_empty_weak (cfg : Config) (top : List ScoredCase) :
    (assessStrength cfg top = Verdict.strong ∨
      assessStrength cfg top = Verdict.moderate ∨
      assessStrength cfg top = Verdict.weak) ∧
    (top = [] → assessStrength cfg top = Verdict.weak) ∧
    (∀ text ctx, (analyzeCore cfg [] text ctx).legalStrength = Verdict.weak) := by
  refine ⟨?_, ?_, ?_⟩
  · cases hv : assessStrength cfg top with
    | strong => exact Or.inl rfl
    | moderate => exact Or.inr (Or.inl rfl)
    | weak => exact Or.inr (Or.inr rfl)
  · intro h
    subst h
    rfl
  · intro text ctx
    show assessStrength cfg (rankCases cfg (normalizeQuery cfg text ctx) []) =
      Verdict.weak
    simp [rankCases, relevanceFilter, assessStrength, List.take_nil]

/-- C9: on a blank (empty or whitespace-only) query, EmpowerPage's
handleAnalyze returns without issuing any request and leaves the component
state unchanged, and the submit button is disabled, so the backend's
InvalidInput path is unreachable from this UI. -/
theorem handleAnalyze_blank_noop (st : EmpowerPageState)
    (h : isBlank st.query = true) :
    handleAnalyze st = (st, none) ∧ submitDisabled st = true := by
  constructor
  · unfold handleAnalyze
    simp [h]
  · unfold submitDisabled
    simp [h]

/-- C10: analyzeEmpowerment adds the context (and lang) key to the request
body only when the argument is truthy; with context undefined or the empty
string the serialized body carries no context key, so an empty-string
context is indistinguishable from an absent one at the Analyze interface. -/
theorem context_key_only_when_truthy (q : String) (lang : Option String) :
    (buildAnalyzeBody q none lang).context = none ∧
    (buildAnalyzeBody q (some "") lang).context = none ∧
    buildAnalyzeBody q (some "") lang = buildAnalyzeBody q none lang ∧
    (∀ s : String, s ≠ "" → (buildAnalyzeBody q (some s) lang).context = some s) := by
  refine ⟨rfl, by simp [buildAnalyzeBody], by simp [buildAnalyzeBody], ?_⟩
  intro s hs
  simp [buildAnalyzeBody, hs]

/-! ## Concrete fixtures and witnesses -/

/-- A small concrete configuration in the shape the spec prescribes (§6). -/
def sampleConfig : Config :=
  { stopwords := ["the", "my", "a", "i"]
    synonyms := [("deposit", ["security", "advance", "rent"])]
    domainKeywords :=
      [("Consumer Protection", ["warranty", "product", "refund"]),
       ("Property Law", ["rent", "deposit", "landlord"])]
    subcategories :=
      [("Consumer Protection",
        [("Defective Product / Warranty Claim", ["warranty", "product"]),
         ("Unfair Trade Practice", ["unfair"])])]
    minKeywordMatch := 1
    relevanceFloor := 20
    strongThreshold := 120
    moderateThreshold := 60
    topN := 5
    impliedStatutes :=
      [("Defective Product / Warranty Claim", ["Consumer Protection Act 2019"])]
    actionSteps := [] }

/-- A concrete consumer-forum precedent record. -/
def sampleCase : CaseRecord :=
  { id := 1
    caseName := "A v B"
    court := Court.tribunal
    year := 2020
    citationCount := 12
    statutes := ["Consumer Protection Act 2019"]
    summary := "defective product warranty"
    tags := ["warranty", "product"] }

/-- A normalized query with zero token overlap with `sampleCase`. -/
def zeroOverlapQuery : NormalizedQuery :=
  { originalText := "pollution"
    tokens := ["pollution"]
    domainHint := "unknown" }

/-- A scored case sitting exactly at the sample relevance floor. -/
def scoredAtFloor : ScoredCase :=
  { record := sampleCase
    relevance_score := 20
    authority_score := 50
    strength_score := 30 }

/-- A scored case one unit below the sample relevance floor. -/
def scoredBelowFloor : ScoredCase :=
  { record := sampleCase
    relevance_score := 19
    authority_score := 50
    strength_score := 28 }

/-- A page state whose query is whitespace-only. -/
def blankState : EmpowerPageState :=
  { query := "   "
    context := ""
    results := none
    loading := false
    error := "" }

theorem strength_is_relevance_gated_witness :
    (scoreCase zeroOverlapQuery sampleCase).strength_score = 0 :=
  (strength_is_relevance_gated zeroOverlapQuery sampleCase).2.2.1 (by decide)

theorem relevanceFilter_floor_inclusive_witness :
    scoredAtFloor ∈ relevanceFilter 20 [scoredAtFloor] ∧
    scoredBelowFloor ∉ relevanceFilter 20 [scoredBelowFloor] :=
  ⟨(relevanceFilter_floor_inclusive 20 [scoredAtFloor] scoredAtFloor).2.1
      (List.mem_singleton.mpr rfl) rfl,
   (relevanceFilter_floor_inclusive 20 [scoredBelowFloor] scoredBelowFloor).2.2.1
      (by norm_num [scoredBelowFloor])⟩

theorem analyze_deterministic_witness :
    analyze sampleConfig [sampleCase] "warranty issue" none =
      analyze sampleConfig [sampleCase] "warranty issue" none :=
  analyze_deterministic sampleConfig [sampleCase] "warranty issue" "warranty issue"
    none none rfl rfl

theorem analyze_invalid_input_iff_blank_witness :
    analyze sampleConfig [] "   " none = Except.error AnalyzeError.invalidInput ∧
    analyze sampleConfig [] "warranty" none =
      Except.ok (analyzeCore sampleConfig [] "warranty" none) :=
  ⟨(analyze_invalid_input_iff_blank sampleConfig [] "   " none).1 (by decide),
   (analyze_invalid_input_iff_blank sampleConfig [] "warranty" none).2 (by decide)⟩

theorem classifier_generic_fallback_witness :
    classify sampleConfig (normalizeQuery sampleConfig "pollution" none) =
      { category := "General Legal Issue", needsFallback := true } :=
  classifier_generic_fallback sampleConfig "pollution" none (by decide)

theorem scoring_axes_independent_witness :
    authority_score { sampleCase with citationCount := 3 } ≤
      authority_score { sampleCase with citationCount := 5 } ∧
    relevance_score zeroOverlapQuery { sampleCase with citationCount := 3 } =
      relevance_score zeroOverlapQuery { sampleCase with citationCount := 5 } :=
  scoring_axes_independent zeroOverlapQuery sampleCase 3 5 (by decide)

theorem verdict_ternary_empty_weak_witness :
    assessStrength sampleConfig [] = Verdict.weak ∧
    (analyzeCore sampleConfig [] "warranty" none).legalStrength = Verdict.weak :=
  ⟨(verdict_ternary_empty_weak sampleConfig []).2.1 rfl,
   (verdict_ternary_empty_weak sampleConfig []).2.2 "warranty" none⟩

theorem handleAnalyze_blank_noop_witness :
    handleAnalyze blankState = (blankState, none) ∧
    submitDisabled blankState = true :=
  handleAnalyze_blank_noop blankState (by decide)

theorem context_key_only_when_truthy_witness :
    (buildAnalyzeBody "query" none none).context = none ∧
    (buildAnalyzeBody "query" (some "") none).context = none ∧
    (buildAnalyzeBody "query" (some "extra") none).context = some "extra" :=
  ⟨(context_key_only_when_truthy "query" none).1,
   (context_key_only_when_truthy "query" none).2.1,
   (context_key_only_when_truthy "query" none).2.2.2 "extra" (by decide)⟩
